import Mathlib

/-!
Verification of the FrameGrabber web application.

The development shallowly embeds the state and event handlers of the
application:

* `Grabber` models the canvas-based frame grabber page
  (`src/app/page.tsx`): its React state (`videoFile`, `videoUrl`,
  `duration`, `position`, `frameUrl`, `isExtracting`), the `<video>`
  element, and the handlers `onChooseFile` and `extractFrame` /
  `handleSeeked`.  Object URLs handed out by `URL.createObjectURL` are
  modelled by a monotone allocator counter `nextUrl`; calls with an
  observable effect (`URL.revokeObjectURL`, `URL.createObjectURL`,
  `console.error`, `alert`) are recorded in an effect trace.
* `FFmpegGrabber` models the ffmpeg.wasm based extractor
  (the alternative page kept in the repository): the `-ss` seek-time
  clamp and the structured argument list passed to `ffmpeg.exec`.
* `Editor` models the fabric.js frame editor (`src/app/FrameEditor.tsx`):
  the undo/redo history of serialized canvas snapshots
  (`historyRef` / `historyIndexRef`), `saveHistory` with its 50-entry
  cap, `undo`, `redo`, the crop-region arithmetic of `applyCrop`, and
  the `Download` button.  `JSON.stringify` / `JSON.parse` are inverses on
  the snapshot records the code stores, so a snapshot is modelled as a
  structured value rather than a string.
-/

namespace Grabber

/-- Observable browser effects performed by the handlers. -/
inductive Effect where
  | revokeObjectURL (u : Nat)
  | createObjectURL (u : Nat)
  | consoleError (msg : String)
  | alertBox (msg : String)
  deriving DecidableEq, Repr

/-- The `<video>` element, as far as the handlers read or write it. -/
structure Video where
  currentTime : ℚ
  videoWidth : Nat
  videoHeight : Nat
  duration : ℚ
  deriving DecidableEq, Repr

/-- A 2D canvas created by `document.createElement(canvas)`; only its
dimensions are relevant to the grabber. -/
structure Canvas2D where
  width : Nat
  height : Nat
  deriving DecidableEq, Repr

/-- The React state of the grabber page.  `nextUrl` is the allocator for
object URLs: `URL.createObjectURL` returns the current counter value and
bumps it, so distinct calls return distinct URLs. -/
structure GrabberState where
  videoFile : Option String
  videoUrl : Option Nat
  duration : ℚ
  position : ℚ
  frameUrl : Option Nat
  isExtracting : Bool
  nextUrl : Nat
  deriving DecidableEq, Repr

/-- Every object URL stored in the state was previously handed out by the
allocator, i.e. is below the counter.  This holds in every reachable
state because URLs only enter the state from `URL.createObjectURL`. -/
def urlsWF (s : GrabberState) : Bool :=
  s.frameUrl.all (fun u => decide (u < s.nextUrl)) &&
    s.videoUrl.all (fun u => decide (u < s.nextUrl))

/-- The `onChooseFile` handler of `src/app/page.tsx`: revoke and clear the
previous frame URL, store the file, revoke the previous video URL, and
either create a fresh object URL for the new file (resetting `position`
and `duration` to 0) or clear everything when the file is `null`. -/
def onChooseFile (s : GrabberState) (file : Option String) :
    GrabberState × List Effect :=
  let frameEffects := match s.frameUrl with
    | some u => [Effect.revokeObjectURL u]
    | none => []
  let videoEffects := match s.videoUrl with
    | some u => [Effect.revokeObjectURL u]
    | none => []
  match file with
  | some f =>
      ({ videoFile := some f, videoUrl := some s.nextUrl, duration := 0,
         position := 0, frameUrl := none, isExtracting := s.isExtracting,
         nextUrl := s.nextUrl + 1 },
       frameEffects ++ videoEffects ++ [Effect.createObjectURL s.nextUrl])
  | none =>
      ({ videoFile := none, videoUrl := none, duration := 0, position := 0,
         frameUrl := none, isExtracting := s.isExtracting,
         nextUrl := s.nextUrl },
       frameEffects ++ videoEffects)

/-- Outcomes of the browser calls made inside the `seeked` handler: whether
`canvas.getContext(2d)` returned a context, whether `drawImage` threw,
and whether `canvas.toBlob` delivered a blob. -/
structure SeekEnv where
  ctxOk : Bool
  drawOk : Bool
  blobOk : Bool
  deriving DecidableEq, Repr

/-- Result of running the `seeked` handler: the updated React state, the
canvas that was created, and the trace of observable effects. -/
structure SeekedResult where
  state : GrabberState
  canvas : Canvas2D
  effects : List Effect
  deriving DecidableEq, Repr

/-- The `handleSeeked` closure inside `extractFrame`
(`src/app/page.tsx`): create a canvas sized to the video, draw the
current frame, encode it with `toBlob(image/jpeg, 0.9)` and replace
`frameUrl` (revoking the previous one); on a missing context or a throwing
draw, log, alert and reset `isExtracting`; on a null blob, log and reset. -/
def handleSeeked (video : Video) (env : SeekEnv) (s : GrabberState) :
    SeekedResult :=
  let canvas : Canvas2D := { width := video.videoWidth, height := video.videoHeight }
  if env.ctxOk && env.drawOk then
    if env.blobOk then
      let url := s.nextUrl
      let s2 := { s with frameUrl := some url, nextUrl := s.nextUrl + 1,
                         isExtracting := false }
      { state := s2,
        canvas := canvas,
        effects := [Effect.createObjectURL url] ++
          (match s.frameUrl with
           | some u => [Effect.revokeObjectURL u]
           | none => []) }
    else
      { state := { s with isExtracting := false }, canvas := canvas,
        effects := [Effect.consoleError "Failed to create blob from canvas"] }
  else
    { state := { s with isExtracting := false }, canvas := canvas,
      effects := [Effect.consoleError "Canvas extraction failed:",
                  Effect.alertBox "Failed to extract frame. Please try again."] }

/-- Result of a full `extractFrame` call: the video element (with its
`currentTime` possibly re-assigned), the React state, the canvas created by
the `seeked` handler (if it ran), and the effect trace. -/
structure ExtractResult where
  video : Option Video
  state : GrabberState
  canvas : Option Canvas2D
  effects : List Effect
  deriving DecidableEq, Repr

/-- The `extractFrame` handler of `src/app/page.tsx`: bail out when there is
no video element or no chosen file; otherwise set `isExtracting`, assign
`video.currentTime = position` to trigger a seek, and run the registered
`handleSeeked` listener once the `seeked` event fires. -/
def extractFrame (video : Option Video) (env : SeekEnv) (s : GrabberState) :
    ExtractResult :=
  match video, s.videoFile with
  | some v, some _ =>
      let v1 := { v with currentTime := s.position }
      let s1 := { s with isExtracting := true }
      let r := handleSeeked v1 env s1
      { video := some v1, state := r.state, canvas := some r.canvas,
        effects := r.effects }
  | v, _ => { video := v, state := s, canvas := none, effects := [] }

/-- The `onerror` handler installed on the image element the editor loads
(`src/app/FrameEditor.tsx`): it only logs to the console; no state change
and no retry. -/
def editorImageOnErrorEffects : List Effect :=
  [Effect.consoleError "Error loading image:"]

/-- The rendering `Number.prototype.toFixed(2)` of the slider position: round to the
nearest hundredth (ties toward the larger value, as the ECMAScript spec
prescribes) and print with exactly two fractional digits. -/
def toFixed2 (p : ℚ) : String :=
  let n : ℤ := round (p * 100)
  let sign := if n < 0 then "-" else ""
  let m := n.natAbs
  sign ++ toString (m / 100) ++ "." ++
    (if m % 100 < 10 then "0" else "") ++ toString (m % 100)

/-- A download offered to the user: target filename, image format passed to
the encoder, and encoder quality. -/
structure Download where
  filename : String
  format : String
  quality : ℚ
  deriving DecidableEq, Repr

/-- The grabber's download link: the blob produced by
`canvas.toBlob(cb, image/jpeg, 0.9)` offered as
`frame_${position.toFixed(2)}s.jpg`. -/
def grabberDownload (position : ℚ) : Download :=
  { filename := "frame_" ++ toFixed2 position ++ "s.jpg",
    format := "image/jpeg", quality := 9/10 }

/-- The editor's Download button (`downloadCanvas` in
`src/app/FrameEditor.tsx`): `canvas.toDataURL` with format `"jpeg"` and
quality 0.9, offered as `edited-frame.jpg`. -/
def editorDownload : Download :=
  { filename := "edited-frame.jpg", format := "jpeg", quality := 9/10 }

/-- The filename ends in `.jpg`. -/
def endsInJpg (f : String) : Prop := ".jpg".data <:+ f.data

theorem endsInJpg_concat (a : String) : endsInJpg (a ++ "s.jpg") := by
  unfold endsInJpg
  rw [String.data_append a "s.jpg"]
  exact List.IsSuffix.trans (by decide) (List.suffix_append a.data "s.jpg".data)

end Grabber

namespace Grabber

/-- C2: every download the program produces is a JPEG named `*.jpg`: the
grabber encodes the frame via `toBlob` with MIME type `image/jpeg` at
quality 0.9 under the name `frame_<position>s.jpg`, and the editor's
Download button exports with format `"jpeg"` at quality 0.9 under
`edited-frame.jpg`. -/
theorem downloads_are_jpeg (p : ℚ) :
    (grabberDownload p).format = "image/jpeg" ∧
    (grabberDownload p).quality = 9/10 ∧
    (grabberDownload p).filename = "frame_" ++ toFixed2 p ++ "s.jpg" ∧
    endsInJpg (grabberDownload p).filename ∧
    editorDownload.filename = "edited-frame.jpg" ∧
    editorDownload.format = "jpeg" ∧
    editorDownload.quality = 9/10 ∧
    endsInJpg editorDownload.filename := by
  refine ⟨rfl, rfl, rfl, endsInJpg_concat ("frame_" ++ toFixed2 p), rfl, rfl, rfl, ?_⟩
  unfold endsInJpg
  decide

theorem urlsWF_frameUrl {s : GrabberState} {u : Nat} (hw : urlsWF s = true)
    (h : s.frameUrl = some u) : u < s.nextUrl := by
  unfold urlsWF at hw
  rw [h] at hw
  simp [Option.all] at hw
  exact hw.1

theorem urlsWF_videoUrl {s : GrabberState} {u : Nat} (hw : urlsWF s = true)
    (h : s.videoUrl = some u) : u < s.nextUrl := by
  unfold urlsWF at hw
  rw [h] at hw
  simp [Option.all] at hw
  exact hw.2

/-- C6: choosing a video file resets the grabber's UI-local state: the
previous frame URL and video URL (if any) are revoked, `frameUrl` becomes
`null`, `position` and `duration` become 0, `videoFile` becomes the chosen
file, and `videoUrl` becomes a fresh object URL for it; for a `null` file
`videoUrl` also becomes `null`. -/
theorem onChooseFile_spec (s : GrabberState) (f : String)
    (hw : urlsWF s = true) :
    (onChooseFile s (some f)).1.frameUrl = none ∧
    (onChooseFile s (some f)).1.position = 0 ∧
    (onChooseFile s (some f)).1.duration = 0 ∧
    (onChooseFile s (some f)).1.videoFile = some f ∧
    (onChooseFile s (some f)).1.videoUrl = some s.nextUrl ∧
    s.videoUrl ≠ some s.nextUrl ∧
    s.frameUrl ≠ some s.nextUrl ∧
    (∀ u, s.frameUrl = some u →
      Effect.revokeObjectURL u ∈ (onChooseFile s (some f)).2) ∧
    (∀ u, s.videoUrl = some u →
      Effect.revokeObjectURL u ∈ (onChooseFile s (some f)).2) ∧
    Effect.createObjectURL s.nextUrl ∈ (onChooseFile s (some f)).2 ∧
    (onChooseFile s none).1.videoUrl = none := by
  refine ⟨rfl, rfl, rfl, rfl, rfl, ?_, ?_, ?_, ?_, ?_, rfl⟩
  · intro h
    exact absurd (urlsWF_videoUrl hw h) (lt_irrefl _)
  · intro h
    exact absurd (urlsWF_frameUrl hw h) (lt_irrefl _)
  · intro u hu
    simp [onChooseFile, hu]
  · intro u hu
    simp [onChooseFile, hu]
  · simp [onChooseFile]

/-- Witness for `onChooseFile_spec` at a concrete state. -/
theorem onChooseFile_spec_witness :
    (onChooseFile { videoFile := none, videoUrl := some 0, duration := 5,
                    position := 2, frameUrl := some 1, isExtracting := false,
                    nextUrl := 2 } (some "clip.mp4")).1.videoUrl = some 2 :=
  (onChooseFile_spec _ "clip.mp4" (by decide)).2.2.2.2.1

/-- C1: for every loaded video and slider position, `extractFrame` sets the
video's `currentTime` to the slider position, and once the `seeked` event
fires it rasterizes the frame onto a fresh canvas whose dimensions equal
`videoWidth` x `videoHeight` and replaces `frameUrl` with a new object URL
for the encoded blob, revoking the previous `frameUrl` if one existed. -/
theorem extractFrame_spec (v : Video) (env : SeekEnv) (s : GrabberState)
    (f : String) (hf : s.videoFile = some f)
    (hc : env.ctxOk = true) (hd : env.drawOk = true) (hb : env.blobOk = true)
    (hw : urlsWF s = true) :
    (extractFrame (some v) env s).video =
      some { v with currentTime := s.position } ∧
    (extractFrame (some v) env s).canvas =
      some { width := v.videoWidth, height := v.videoHeight } ∧
    (extractFrame (some v) env s).state.frameUrl = some s.nextUrl ∧
    s.frameUrl ≠ some s.nextUrl ∧
    Effect.createObjectURL s.nextUrl ∈ (extractFrame (some v) env s).effects ∧
    (∀ u, s.frameUrl = some u →
      Effect.revokeObjectURL u ∈ (extractFrame (some v) env s).effects) ∧
    (extractFrame (some v) env s).state.isExtracting = false := by
  refine ⟨?_, ?_, ?_, ?_, ?_, ?_, ?_⟩
  · simp [extractFrame, hf]
  · simp [extractFrame, hf, handleSeeked, hc, hd, hb]
  · simp [extractFrame, hf, handleSeeked, hc, hd, hb]
  · intro h
    exact absurd (urlsWF_frameUrl hw h) (lt_irrefl _)
  · simp [extractFrame, hf, handleSeeked, hc, hd, hb]
  · intro u hu
    simp [extractFrame, hf, handleSeeked, hc, hd, hb, hu]
  · simp [extractFrame, hf, handleSeeked, hc, hd, hb]

/-- Witness for `extractFrame_spec` at a concrete video and state. -/
theorem extractFrame_spec_witness :
    (extractFrame
      (some { currentTime := 0, videoWidth := 640, videoHeight := 360,
              duration := 10 })
      { ctxOk := true, drawOk := true, blobOk := true }
      { videoFile := some "clip.mp4", videoUrl := some 0, duration := 10,
        position := 3, frameUrl := some 1, isExtracting := false,
        nextUrl := 2 }).state.frameUrl = some 2 :=
  (extractFrame_spec _ _ _ "clip.mp4" rfl rfl rfl rfl (by decide)).2.2.1

/-- C5: frame-extraction failures are surfaced only via an alert and a
console log, with no retry: when the 2D context is missing or drawing
throws, the `seeked` handler's trace is exactly one `console.error` and one
`alert`, `isExtracting` is reset to `false`, and `frameUrl` is unchanged;
an image load error in the editor only logs to the console. -/
theorem errorHandling_spec (v : Video) (env : SeekEnv) (s : GrabberState)
    (h : env.ctxOk = false ∨ env.drawOk = false) :
    (handleSeeked v env s).state.frameUrl = s.frameUrl ∧
    (handleSeeked v env s).state.isExtracting = false ∧
    (handleSeeked v env s).effects =
      [Effect.consoleError "Canvas extraction failed:",
       Effect.alertBox "Failed to extract frame. Please try again."] ∧
    editorImageOnErrorEffects = [Effect.consoleError "Error loading image:"] := by
  have hcond : (env.ctxOk && env.drawOk) = false := by
    rcases h with h | h <;> simp [h]
  refine ⟨?_, ?_, ?_, rfl⟩ <;> simp [handleSeeked, hcond]

/-- Witness for `errorHandling_spec` at a concrete failing environment. -/
theorem errorHandling_spec_witness :
    (handleSeeked
      { currentTime := 0, videoWidth := 640, videoHeight := 360, duration := 10 }
      { ctxOk := false, drawOk := true, blobOk := true }
      { videoFile := some "clip.mp4", videoUrl := some 0, duration := 10,
        position := 3, frameUrl := some 1, isExtracting := true,
        nextUrl := 2 }).state.frameUrl = some 1 :=
  (errorHandling_spec _ _ _ (Or.inl rfl)).1

end Grabber

namespace FFmpegGrabber

/-- The seek timestamp rendered into the `-ss` argument of the ffmpeg.wasm
extractor: `Math.max(0, Math.min(position, Math.max(0.001, duration)))`. -/
def seekTime (position duration : ℚ) : ℚ :=
  max 0 (min position (max (1/1000) duration))

/-- The argument list passed to `ffmpeg.exec` in the ffmpeg.wasm
`extractFrame`, in structured form: each field holds the value rendered
into the corresponding slot of
`["-ss", t, "-i", inputName, "-frames:v", "1", "-q:v", "2", "frame.jpg"]`. -/
structure FFmpegExecCmd where
  ss : ℚ
  inputName : String
  framesV : Nat
  qv : Nat
  outputName : String
  deriving DecidableEq, Repr

/-- The command the ffmpeg.wasm `extractFrame` executes for a chosen
position and the video's duration. -/
def extractCmd (inputName : String) (position duration : ℚ) : FFmpegExecCmd :=
  { ss := seekTime position duration,
    inputName := inputName,
    framesV := 1, qv := 2, outputName := "frame.jpg" }

/-- C4: the ffmpeg.wasm extractor requests exactly one still frame
(`-frames:v 1`), and the `-ss` timestamp equals
`max(0, min(position, max(0.001, duration)))`; for every position and
duration it lies in `[0, max(0.001, duration)]`, and it equals the chosen
position whenever `0 <= position <= duration`. -/
theorem ffmpegExtract_spec (inputName : String) (p d : ℚ) :
    (extractCmd inputName p d).framesV = 1 ∧
    (extractCmd inputName p d).ss = max 0 (min p (max (1/1000) d)) ∧
    0 ≤ (extractCmd inputName p d).ss ∧
    (extractCmd inputName p d).ss ≤ max (1/1000) d ∧
    (0 ≤ p → p ≤ d → (extractCmd inputName p d).ss = p) := by
  refine ⟨rfl, rfl, le_max_left 0 _, ?_, ?_⟩
  · show max 0 (min p (max (1/1000) d)) ≤ max (1/1000) d
    apply max_le
    · exact le_trans (by norm_num) (le_max_left (1/1000 : ℚ) d)
    · exact min_le_right _ _
  · intro hp hd
    show max 0 (min p (max (1/1000) d)) = p
    rw [min_eq_left (le_trans hd (le_max_right _ _)), max_eq_right hp]

/-- Witness for `ffmpegExtract_spec`: at position 1 of a 2-second video the
seek timestamp is exactly the chosen position. -/
theorem ffmpegExtract_spec_witness : (extractCmd "input.mp4" 1 2).ss = 1 :=
  (ffmpegExtract_spec "input.mp4" 1 2).2.2.2.2 (by norm_num) (by norm_num)

end FFmpegGrabber

namespace Editor

/-- One history entry of the frame editor: the record
`{canvas: canvas.toJSON(), width: canvas.width, height: canvas.height}`
that `saveHistory` serializes with `JSON.stringify`.  `stringify` and
`parse` are mutually inverse on these records, so the entry is modelled as
the structured value. -/
structure Snapshot where
  canvasJson : String
  width : ℚ
  height : ℚ
  deriving DecidableEq, Repr

/-- The fabric.js canvas, as far as the history code observes it: its
dimensions (read and written through `setDimensions`) and its object graph
serialized by `toJSON` / restored by `loadFromJSON`. -/
structure FabricCanvas where
  width : ℚ
  height : ℚ
  content : String
  deriving DecidableEq, Repr

/-- The editor state touched by the history functions: `historyRef`,
`historyIndexRef` (initialized to -1, hence an integer), and the canvas. -/
structure EditorState where
  history : List Snapshot
  index : ℤ
  canvas : FabricCanvas
  deriving DecidableEq, Repr

/-- The snapshot `saveHistory` takes of the current canvas. -/
def snapshotOf (c : FabricCanvas) : Snapshot :=
  { canvasJson := c.content, width := c.width, height := c.height }

/-- Restoring a snapshot: `setDimensions({width, height})` followed by
`loadFromJSON(state.canvas)`. -/
def loadSnapshot (snap : Snapshot) : FabricCanvas :=
  { width := snap.width, height := snap.height, content := snap.canvasJson }

/-- JavaScript array indexing `history[i]`: `undefined` (here `none`) when
`i` is negative or past the end. -/
def historyGet (l : List Snapshot) (i : ℤ) : Option Snapshot :=
  if i < 0 then none else l.get? i.toNat

/-- The `while (newHistory.length > 50) newHistory.shift()` loop of
`saveHistory`: repeatedly drop the oldest entry until at most 50 remain. -/
def trimHistory (l : List Snapshot) : List Snapshot :=
  if _h : 50 < l.length then trimHistory l.tail else l
termination_by l.length
decreasing_by
  simp [List.length_tail]
  omega

/-- The function `saveHistory` (`src/app/FrameEditor.tsx`): snapshot the canvas, drop
every history entry after the current index
(`history.slice(0, currentIndex + 1)`), append the snapshot, cap the list
at 50 entries by shifting from the front, and point the index at the last
entry. -/
def saveHistory (s : EditorState) : EditorState :=
  let snap := snapshotOf s.canvas
  let newHistory := trimHistory (s.history.take (s.index + 1).toNat ++ [snap])
  { s with history := newHistory, index := (newHistory.length : ℤ) - 1 }

/-- The function `undo` (`src/app/FrameEditor.tsx`): when the index is positive, restore
the dimensions and JSON of the previous snapshot and decrement the index;
otherwise do nothing.  (When the guard holds but the entry is missing —
unreachable, since the index always stays within the history — `JSON.parse`
throws before any ref is written, so the state is likewise unchanged.) -/
def undo (s : EditorState) : EditorState :=
  if 0 < s.index then
    match historyGet s.history (s.index - 1) with
    | some snap => { s with index := s.index - 1, canvas := loadSnapshot snap }
    | none => s
  else s

/-- The function `redo` (`src/app/FrameEditor.tsx`): when the index is below
`history.length - 1`, restore the next snapshot and increment the index;
otherwise do nothing. -/
def redo (s : EditorState) : EditorState :=
  if s.index < (s.history.length : ℤ) - 1 then
    match historyGet s.history (s.index + 1) with
    | some snap => { s with index := s.index + 1, canvas := loadSnapshot snap }
    | none => s
  else s

theorem trimHistory_eq_drop (l : List Snapshot) :
    trimHistory l = l.drop (l.length - 50) := by
  induction l with
  | nil => rw [trimHistory]; simp
  | cons a t ih =>
      by_cases h : 50 < (a :: t).length
      · rw [trimHistory, dif_pos h, List.tail_cons, ih]
        have hlen : (a :: t).length - 50 = (t.length - 50) + 1 := by
          simp only [List.length_cons] at h ⊢
          omega
        rw [hlen, List.drop_succ_cons]
      · rw [trimHistory, dif_neg h]
        have hlen : (a :: t).length - 50 = 0 := by
          simp only [List.length_cons] at h ⊢
          omega
        rw [hlen, List.drop_zero]

/-- C7: the history buffer is bounded and the index points at the newest
entry after a save: after `saveHistory`, the history has between 1 and 50
entries, the index equals `length - 1`, the new history is a suffix of
"entries up to the pre-save index plus the new snapshot" (so entries after
the pre-save index are discarded), the whole of that list is kept when it
fits in 50 entries, and otherwise the oldest entries are dropped from the
front. -/
theorem saveHistory_spec (s : EditorState) (h : -1 ≤ s.index) :
    1 ≤ (saveHistory s).history.length ∧
    (saveHistory s).history.length ≤ 50 ∧
    (saveHistory s).index = ((saveHistory s).history.length : ℤ) - 1 ∧
    (saveHistory s).history <:+
      (s.history.take (s.index + 1).toNat ++ [snapshotOf s.canvas]) ∧
    ((s.history.take (s.index + 1).toNat ++ [snapshotOf s.canvas]).length ≤ 50 →
      (saveHistory s).history =
        s.history.take (s.index + 1).toNat ++ [snapshotOf s.canvas]) ∧
    (50 < (s.history.take (s.index + 1).toNat ++ [snapshotOf s.canvas]).length →
      (saveHistory s).history =
        (s.history.take (s.index + 1).toNat ++ [snapshotOf s.canvas]).drop
          ((s.history.take (s.index + 1).toNat ++ [snapshotOf s.canvas]).length - 50)) := by
  have hsave : (saveHistory s).history =
      (s.history.take (s.index + 1).toNat ++ [snapshotOf s.canvas]).drop
        ((s.history.take (s.index + 1).toNat ++ [snapshotOf s.canvas]).length - 50) := by
    simp only [saveHistory]
    exact trimHistory_eq_drop _
  have hlen1 : 0 < (s.history.take (s.index + 1).toNat ++ [snapshotOf s.canvas]).length := by
    simp
  refine ⟨?_, ?_, ?_, ?_, ?_, fun _ => hsave⟩
  · rw [hsave, List.length_drop]
    omega
  · rw [hsave, List.length_drop]
    omega
  · simp [saveHistory]
  · rw [hsave]
    exact List.drop_suffix _ _
  · intro hle
    rw [hsave]
    have : (s.history.take (s.index + 1).toNat ++ [snapshotOf s.canvas]).length - 50 = 0 := by
      omega
    rw [this, List.drop_zero]

/-- Witness for `saveHistory_spec` at a concrete editor state. -/
theorem saveHistory_spec_witness :
    (saveHistory { history := [], index := -1,
                   canvas := { width := 100, height := 50, content := "c0" } }).index = 0 := by
  have h := saveHistory_spec
    { history := [], index := -1,
      canvas := { width := 100, height := 50, content := "c0" } } (by decide)
  rw [h.2.2.1, h.2.2.2.2.1 (by decide)]
  decide

end Editor

namespace Editor

theorem historyGet_eq_some_of_lt {l : List Snapshot} {i : ℤ}
    (h0 : 0 ≤ i) (hl : i < (l.length : ℤ)) :
    ∃ snap, historyGet l i = some snap := by
  unfold historyGet
  rw [if_neg (by omega)]
  cases hget : l.get? i.toNat with
  | none =>
      have := List.get?_eq_none.mp hget
      omega
  | some snap => exact ⟨snap, rfl⟩

/-- C3: undo and redo restore serialized snapshots: `undo` applies exactly
when the history index is positive, and then decrements the index by one,
restores the width and height saved in that snapshot and loads its JSON
into the canvas, leaving the history list untouched; `redo` applies exactly
when the index is below `history.length - 1`, and then increments the index
and restores that snapshot the same way; when the precondition fails the
state is unchanged. -/
theorem undo_redo_spec (s : EditorState) :
    (s.index ≤ 0 → undo s = s) ∧
    (¬ s.index < (s.history.length : ℤ) - 1 → redo s = s) ∧
    (∀ snap, 0 < s.index → historyGet s.history (s.index - 1) = some snap →
      (undo s).index = s.index - 1 ∧
      (undo s).history = s.history ∧
      (undo s).canvas.width = snap.width ∧
      (undo s).canvas.height = snap.height ∧
      (undo s).canvas.content = snap.canvasJson) ∧
    (∀ snap, s.index < (s.history.length : ℤ) - 1 →
      historyGet s.history (s.index + 1) = some snap →
      (redo s).index = s.index + 1 ∧
      (redo s).history = s.history ∧
      (redo s).canvas.width = snap.width ∧
      (redo s).canvas.height = snap.height ∧
      (redo s).canvas.content = snap.canvasJson) := by
  refine ⟨?_, ?_, ?_, ?_⟩
  · intro h
    unfold undo
    rw [if_neg (by omega)]
  · intro h
    unfold redo
    rw [if_neg h]
  · intro snap hpos hget
    unfold undo
    rw [if_pos hpos, hget]
    exact ⟨rfl, rfl, rfl, rfl, rfl⟩
  · intro snap hlt hget
    unfold redo
    rw [if_pos hlt, hget]
    exact ⟨rfl, rfl, rfl, rfl, rfl⟩

/-- Witness for `undo_redo_spec` at a concrete two-entry history. -/
theorem undo_redo_spec_witness :
    (undo { history := [{ canvasJson := "c0", width := 10, height := 20 },
                        { canvasJson := "c1", width := 30, height := 40 }],
            index := 1,
            canvas := { width := 30, height := 40, content := "c1" } }).index = 0 := by
  have h := (undo_redo_spec
    { history := [{ canvasJson := "c0", width := 10, height := 20 },
                  { canvasJson := "c1", width := 30, height := 40 }],
      index := 1,
      canvas := { width := 30, height := 40, content := "c1" } }).2.2.1
    { canvasJson := "c0", width := 10, height := 20 } (by decide) (by decide)
  rw [h.1]
  decide

/-- C8: undo followed by redo is the identity on the history model: for a
positive in-range index, `undo` then `redo` restores the index, reloads the
snapshot that was current before the undo, and neither operation modifies
the history list; when the canvas agreed with that snapshot (as it does
after every `saveHistory`), the whole state is restored. -/
theorem undo_redo_roundtrip (s : EditorState)
    (h1 : 0 < s.index) (h2 : s.index < (s.history.length : ℤ)) :
    (undo s).history = s.history ∧
    (redo (undo s)).history = s.history ∧
    (redo (undo s)).index = s.index ∧
    (∀ snap, historyGet s.history s.index = some snap →
      (redo (undo s)).canvas = loadSnapshot snap ∧
      (s.canvas = loadSnapshot snap → redo (undo s) = s)) := by
  obtain ⟨snap1, hget1⟩ := historyGet_eq_some_of_lt (l := s.history) (i := s.index - 1)
    (by omega) (by omega)
  have hundo : undo s =
      { s with index := s.index - 1, canvas := loadSnapshot snap1 } := by
    unfold undo
    rw [if_pos h1, hget1]
  have hredo : ∀ snap, historyGet s.history s.index = some snap →
      redo (undo s) = { s with index := s.index, canvas := loadSnapshot snap } := by
    intro snap hget0
    rw [hundo]
    simp only [redo]
    have hc : s.index - 1 < (s.history.length : ℤ) - 1 := by omega
    rw [if_pos hc]
    have : s.index - 1 + 1 = s.index := by omega
    rw [this, hget0]
  refine ⟨by rw [hundo], ?_, ?_, ?_⟩
  · obtain ⟨snap0, hget0⟩ := historyGet_eq_some_of_lt (l := s.history) (i := s.index)
      (by omega) h2
    rw [hredo snap0 hget0]
  · obtain ⟨snap0, hget0⟩ := historyGet_eq_some_of_lt (l := s.history) (i := s.index)
      (by omega) h2
    rw [hredo snap0 hget0]
  · intro snap hget0
    refine ⟨by rw [hredo snap hget0], ?_⟩
    intro hsync
    rw [hredo snap hget0, ← hsync]

/-- Witness for `undo_redo_roundtrip` at a concrete two-entry history. -/
theorem undo_redo_roundtrip_witness :
    redo (undo { history := [{ canvasJson := "c0", width := 10, height := 20 },
                             { canvasJson := "c1", width := 30, height := 40 }],
                 index := 1,
                 canvas := { width := 30, height := 40, content := "c1" } }) =
      { history := [{ canvasJson := "c0", width := 10, height := 20 },
                    { canvasJson := "c1", width := 30, height := 40 }],
        index := 1,
        canvas := { width := 30, height := 40, content := "c1" } } :=
  ((undo_redo_roundtrip _ (by decide) (by decide)).2.2.2
    { canvasJson := "c1", width := 30, height := 40 } (by decide)).2 (by decide)

end Editor

namespace Editor

/-- The crop selection rectangle (`cropRectRef`) read by `applyCrop`. -/
structure CropRect where
  left : ℚ
  top : ℚ
  width : ℚ
  height : ℚ
  deriving DecidableEq, Repr

/-- The exported region computed by `applyCrop`. -/
structure CropRegion where
  cropLeft : ℚ
  cropTop : ℚ
  cropWidth : ℚ
  cropHeight : ℚ
  deriving DecidableEq, Repr

/-- The crop-region arithmetic at the top of `applyCrop`
(`src/app/FrameEditor.tsx`): `cropLeft = max(0, left)`,
`cropTop = max(0, top)`, `cropWidth = min(width, canvasWidth - cropLeft)`,
`cropHeight = min(height, canvasHeight - cropTop)`. -/
def cropRegion (r : CropRect) (canvasWidth canvasHeight : ℚ) : CropRegion :=
  { cropLeft := max 0 r.left,
    cropTop := max 0 r.top,
    cropWidth := min r.width (canvasWidth - max 0 r.left),
    cropHeight := min r.height (canvasHeight - max 0 r.top) }

/-- The `setDimensions` call of `applyCrop`: after exporting the region the
canvas is resized to exactly `cropWidth` by `cropHeight`. -/
def applyCropDims (canvas : FabricCanvas) (r : CropRect) : ℚ × ℚ :=
  ((cropRegion r canvas.width canvas.height).cropWidth,
   (cropRegion r canvas.width canvas.height).cropHeight)

/-- C9 counterexample: for a crop rectangle whose `left` exceeds the canvas
width the exported region has a negative width, so the claim's
"non-negative width and height" fails when quantified over every crop
rectangle. -/
theorem cropRegion_negative_width :
    (cropRegion { left := 1300, top := 0, width := 100, height := 100 }
      1280 720).cropWidth < 0 := by
  norm_num [cropRegion]

/-- C9 (amended): for every crop rectangle with non-negative width and
height whose `left` is at most the canvas width and whose `top` is at most
the canvas height, on a canvas with non-negative dimensions, the exported
region has non-negative width and height and satisfies
`cropLeft + cropWidth <= W` and `cropTop + cropHeight <= H`, and the canvas
is then resized to exactly `cropWidth` by `cropHeight`. -/
theorem cropRegion_contained (r : CropRect) (W H : ℚ)
    (hw : 0 ≤ r.width) (hh : 0 ≤ r.height)
    (hl : r.left ≤ W) (ht : r.top ≤ H) (hW : 0 ≤ W) (hH : 0 ≤ H) :
    0 ≤ (cropRegion r W H).cropWidth ∧
    0 ≤ (cropRegion r W H).cropHeight ∧
    (cropRegion r W H).cropLeft + (cropRegion r W H).cropWidth ≤ W ∧
    (cropRegion r W H).cropTop + (cropRegion r W H).cropHeight ≤ H ∧
    (∀ content : String, applyCropDims { width := W, height := H, content := content } r =
      ((cropRegion r W H).cropWidth, (cropRegion r W H).cropHeight)) := by
  have hleft : max 0 r.left ≤ W := max_le hW hl
  have htop : max 0 r.top ≤ H := max_le hH ht
  refine ⟨?_, ?_, ?_, ?_, fun _ => rfl⟩
  · exact le_min hw (by linarith)
  · exact le_min hh (by linarith)
  · have : (cropRegion r W H).cropWidth ≤ W - max 0 r.left := min_le_right _ _
    simp only [cropRegion] at this ⊢
    linarith
  · have : (cropRegion r W H).cropHeight ≤ H - max 0 r.top := min_le_right _ _
    simp only [cropRegion] at this ⊢
    linarith

/-- Witness for `cropRegion_contained` at a concrete in-bounds crop. -/
theorem cropRegion_contained_witness :
    0 ≤ (cropRegion { left := 100, top := 50, width := 640, height := 360 }
      1280 720).cropWidth :=
  (cropRegion_contained { left := 100, top := 50, width := 640, height := 360 }
    1280 720 (by norm_num) (by norm_num) (by norm_num) (by norm_num)
    (by norm_num) (by norm_num)).1

end Editor
